import Mathlib

/-! String utilities modelling the Rust `str` operations used by
`git-vendor`'s `.gitattributes` handling (src/lib.rs).  All functions are
structurally recursive over `List Char` so that concrete instances reduce
inside the kernel. -/

/-- ASCII whitespace, modelling Rust's `char::is_whitespace` on the
characters that occur in `.gitattributes` files. -/
def isWsChar (c : Char) : Bool :=
  c = ' ' || c = '\t' || c = '\n' || c = '\r'

/-- Drop leading whitespace characters. -/
def dropLeadingWs : List Char → List Char
  | [] => []
  | c :: cs => if isWsChar c then dropLeadingWs cs else c :: cs

/-- Both-sides trim on a character list, modelling Rust's `str::trim`. -/
def trimChars (l : List Char) : List Char :=
  ((dropLeadingWs ((dropLeadingWs l).reverse)).reverse)

/-- Model of Rust's `str::trim`. -/
def trimStr (s : String) : String := ⟨trimChars s.data⟩

/-- Core of whitespace splitting: accumulates the current token reversed. -/
def splitWsCore : List Char → List Char → List (List Char)
  | [], acc => if acc.isEmpty then [] else [acc.reverse]
  | c :: cs, acc =>
    if isWsChar c then
      if acc.isEmpty then splitWsCore cs [] else acc.reverse :: splitWsCore cs []
    else splitWsCore cs (c :: acc)

/-- Model of Rust's `str::split_whitespace` (empty tokens never produced). -/
def splitWhitespace (s : String) : List String :=
  (splitWsCore s.data []).map (fun l => ⟨l⟩)

/-- `startsWithChars p l` is true when `p` is an initial run of `l`. -/
def startsWithChars : List Char → List Char → Bool
  | [], _ => true
  | _ :: _, [] => false
  | a :: as, b :: bs => a = b && startsWithChars as bs

/-- Model of Rust's `str::starts_with`. -/
def strStartsWith (s p : String) : Bool := startsWithChars p.data s.data

/-- Drop the first `n` characters of a string (ASCII keys only, so the
byte count of `str::strip_prefix` coincides with the char count). -/
def strDropN (s : String) (n : Nat) : String := ⟨s.data.drop n⟩

/-- `containsSubChars l sub`: `sub` occurs contiguously in `l`. -/
def containsSubChars : List Char → List Char → Bool
  | [], sub => sub.isEmpty
  | c :: cs, sub => startsWithChars sub (c :: cs) || containsSubChars cs sub

/-- Model of Rust's `str::contains` for substring search. -/
def strContains (s sub : String) : Bool := containsSubChars s.data sub.data

deriving instance DecidableEq for Except

/-! ## Dependency declarations (`src/lib.rs` lines 18-25, 228-290, 352-358)

The attribute file is modelled as its list of lines; the surrounding
filesystem I/O (`fs::File::open`, `BufReader::lines`) is replaced by an
`Option (List String)` — `none` when the file does not exist. -/

/-- `VendorDep` from src/lib.rs lines 19-25.  The Rust field `prefix` is
named `pfx` here because `prefix` is a Lean keyword. -/
structure VendorDep where
  pattern : String
  url : String
  reference : Option String
  pfx : Option String
deriving DecidableEq

/-- The mutable locals of the attribute-scanning loop in
`parse_vendor_deps` (src/lib.rs lines 258-273).  The Rust local
`is_vendored` is the field `is_vendored`. -/
structure LineAttrs where
  url : Option String
  branch : Option String
  pfx : Option String
  is_vendored : Bool
deriving DecidableEq

/-- One iteration of the `for attr in parts` loop of `parse_vendor_deps`
(src/lib.rs lines 263-273). -/
def scanAttr (a : LineAttrs) (t : String) : LineAttrs :=
  if t = "vendored" then { a with is_vendored := true }
  else if strStartsWith t "url=" then { a with url := some (strDropN t 4) }
  else if strStartsWith t "branch=" then { a with branch := some (strDropN t 7) }
  else if strStartsWith t "prefix=" then { a with pfx := some (strDropN t 7) }
  else a

/-- The per-line body of `parse_vendor_deps` after whitespace splitting
(src/lib.rs lines 252-286): first token is the pattern, the rest are
scanned; a `VendorDep` is pushed iff the `vendored` flag was seen and a
`url=` attribute is present. -/
def parseTokens : List String → Option VendorDep
  | [] => none
  | pat :: attrs =>
    let a := attrs.foldl scanAttr ⟨none, none, none, false⟩
    if a.is_vendored then
      match a.url with
      | some u => some ⟨pat, u, a.branch, a.pfx⟩
      | none => none
    else none

/-- Whitespace tokens of a line after trimming. -/
def lineTokens (line : String) : List String := splitWhitespace (trimStr line)

/-- Parse one `.gitattributes` line (src/lib.rs lines 243-286): blank
lines and `#` comments yield nothing. -/
def parseLine (line : String) : Option VendorDep :=
  let t := trimStr line
  if t = "" then none
  else if strStartsWith t "#" then none
  else parseTokens (lineTokens line)

/-- All vendor dependencies of a file's lines, in file-line order. -/
def vendorDepsOfLines (lines : List String) : List VendorDep :=
  lines.filterMap parseLine

/-- `GitError` models `git2::Error::from_str`: a message string. -/
structure GitError where
  msg : String
deriving DecidableEq

/-- `parse_vendor_deps` (src/lib.rs lines 233-290).  A missing file
(`!path.exists()`) yields `Ok` with the empty list; reading the lines of
an existing file cannot fail in this model, so the function is total. -/
def parse_vendor_deps (file : Option (List String)) : Except GitError (List VendorDep) :=
  match file with
  | none => .ok []
  | some lines => .ok (vendorDepsOfLines lines)

/-- `filter_deps` (src/lib.rs lines 352-358): exact pattern match, `none`
selects everything. -/
def filter_deps (deps : List VendorDep) (filter : Option String) : List VendorDep :=
  match filter with
  | none => deps
  | some f => deps.filter (fun d => d.pattern = f)

/-- The dependency set an operation acts on: parse then filter
(src/lib.rs lines 113-116, 129-131). -/
def selectDeps (attrs : Option (List String)) (mp : Option String) : List VendorDep :=
  filter_deps (match attrs with | none => [] | some ls => vendorDepsOfLines ls) mp

/-! ## Untracking (`src/lib.rs` lines 292-350) -/

/-- `is_vendor_line_for_pattern` (src/lib.rs lines 328-350): the line's
first token equals the pattern and some later token is `vendored`,
`name=…`, `url=…` or `branch=…`. -/
def is_vendor_line_for_pattern (line pat : String) : Bool :=
  let t := trimStr line
  if t = "" then false
  else if strStartsWith t "#" then false
  else match splitWhitespace t with
    | [] => false
    | lp :: attrs =>
      lp = pat && attrs.any (fun a =>
        a = "vendored" || strStartsWith a "name=" ||
        strStartsWith a "url=" || strStartsWith a "branch=")

/-- `remove_vendor_lines` (src/lib.rs lines 294-323) on the file's lines:
keep exactly the lines that are not vendor lines for `pat`.  Kept lines
are written back verbatim. -/
def remove_vendor_lines (lines : List String) (pat : String) : List String :=
  lines.filter (fun l => !(is_vendor_line_for_pattern l pat))

example : parseLine "*.txt vendored name=o/r1 url=https://a.com/o/r1.git branch=main"
    = some ⟨"*.txt", "https://a.com/o/r1.git", some "main", none⟩ := by decide
example : parseLine "*.toml vendored url=https://c.com/o/r3.git"
    = some ⟨"*.toml", "https://c.com/o/r3.git", none, none⟩ := by decide
example : parseLine "# comment" = none := by decide
example : parseLine "*.md diff" = none := by decide
example : parseLine "*.txt url=https://a.com/o/r.git branch=main" = none := by decide
example : is_vendor_line_for_pattern "*.txt vendored" "*.txt" = true := by decide
example : is_vendor_line_for_pattern "*.txt diff -text" "*.txt" = false := by decide
example : remove_vendor_lines
    ["*.txt vendored name=o/r url=https://a.com branch=main", "*.txt diff",
     "*.rs vendored name=x/y url=https://b.com branch=dev", "# comment"] "*.txt"
    = ["*.txt diff", "*.rs vendored name=x/y url=https://b.com branch=dev", "# comment"] := by
  decide

/-! ## PatternMatcher

Modelled from the spec: the `git_filter_tree` crate (the PatternMatcher
and TreeFilter components, spec §4.1-§4.2) is an external collaborator
whose source is not in this repository; the definitions below follow the
spec's words.  The recursive matchers carry explicit fuel (always called
with enough of it) so that concrete instances reduce in the kernel. -/

/-- A compiled pattern segment (spec §3 `SegmentMatcher`): a literal, a
single-segment glob over characters, or a globstar. -/
inductive SegMatcher where
  | lit : String → SegMatcher
  | glob : List Char → SegMatcher
  | globstar : SegMatcher
deriving DecidableEq

/-- Character-level glob matching inside one segment (`*` and `?`, no
separator crossing), with fuel. -/
def globMatchF : Nat → List Char → List Char → Bool
  | 0, _, _ => false
  | _ + 1, [], [] => true
  | f + 1, '*' :: ps, [] => globMatchF f ps []
  | _ + 1, _ :: _, [] => false
  | _ + 1, [], _ :: _ => false
  | f + 1, p :: ps, c :: cs =>
    if p = '*' then globMatchF f ps (c :: cs) || globMatchF f ('*' :: ps) cs
    else if p = '?' then globMatchF f ps cs
    else p = c && globMatchF f ps cs

/-- Character-level glob matching; every recursive call of `globMatchF`
decreases `ps.length + cs.length`, so this fuel suffices. -/
def globMatch (ps cs : List Char) : Bool :=
  globMatchF (ps.length + cs.length + 1) ps cs

/-- Does one segment matcher accept one path segment? -/
def segMatchOne : SegMatcher → String → Bool
  | .lit l, s => l = s
  | .glob g, s => globMatch g s.data
  | .globstar, _ => true

/-- Segment-list matching with classic globstar backtracking (spec §4.1),
with fuel. -/
def segsMatchF : Nat → List SegMatcher → List String → Bool
  | 0, _, _ => false
  | _ + 1, [], [] => true
  | f + 1, .globstar :: ps, [] => segsMatchF f ps []
  | _ + 1, _ :: _, [] => false
  | _ + 1, [], _ :: _ => false
  | f + 1, .globstar :: ps, s :: ss =>
    segsMatchF f ps (s :: ss) || segsMatchF f (.globstar :: ps) ss
  | f + 1, m :: ps, s :: ss => segMatchOne m s && segsMatchF f ps ss

/-- Segment-list matching; the fuel bounds the sum of both lengths. -/
def segsMatch (ps : List SegMatcher) (ss : List String) : Bool :=
  segsMatchF (ps.length + ss.length + 1) ps ss

/-- A compiled pattern (spec §3 `Pattern`). -/
structure Pattern where
  segments : List SegMatcher
  anchored : Bool
  directory_only : Bool
deriving DecidableEq

/-- Split on `/`, dropping empty pieces. -/
def splitSlashCore : List Char → List Char → List (List Char)
  | [], acc => if acc.isEmpty then [] else [acc.reverse]
  | c :: cs, acc =>
    if c = '/' then
      if acc.isEmpty then splitSlashCore cs [] else acc.reverse :: splitSlashCore cs []
    else splitSlashCore cs (c :: acc)

/-- Compile one raw segment (spec §3): `**` is a globstar, a segment with
`*` or `?` is a character glob, anything else a literal. -/
def compileSeg (l : List Char) : SegMatcher :=
  if l = ['*', '*'] then .globstar
  else if l.contains '*' || l.contains '?' then .glob l
  else .lit ⟨l⟩

/-- `PatternMatcher.compile` (spec §4.1): fails on the empty string;
`anchored` iff the raw pattern contains a `/`; `directory_only` iff it
ends with `/`. -/
def compilePattern (raw : String) : Option Pattern :=
  if raw.data.isEmpty then none
  else
    let dirOnly := raw.data.getLast? = some '/'
    let core := if dirOnly then raw.data.dropLast else raw.data
    some { segments := (splitSlashCore core []).map compileSeg,
           anchored := raw.data.contains '/',
           directory_only := dirOnly }

/-- `PatternMatcher.matches` on a (file) path given as its segment list
(spec §4.1): an unanchored pattern matches against the final segment only;
an anchored one walks the whole path; a `directory_only` pattern also
matches everything beneath the directory (`pattern + "/**"`). -/
def patMatches (p : Pattern) (path : List String) : Bool :=
  if p.anchored then
    segsMatch p.segments path ||
      (p.directory_only && segsMatch (p.segments ++ [SegMatcher.globstar]) path)
  else
    match p.segments, path.getLast? with
    | [m], some last => segMatchOne m last
    | _, _ => false

example : compilePattern "pyo3/**"
    = some ⟨[.lit "pyo3", .globstar], true, false⟩ := by decide
example : compilePattern "pyo3/" = some ⟨[.lit "pyo3"], true, true⟩ := by decide
example : compilePattern "*.txt" = some ⟨[.glob ['*', '.', 't', 'x', 't']], false, false⟩ := by
  decide
example : compilePattern "" = none := by decide
-- spec §8 pattern semantics
example : patMatches ⟨[.glob "*.txt".data], false, false⟩ ["c.txt"] = true := by decide
example : patMatches ⟨[.glob "*.txt".data], false, false⟩ ["a", "b", "c.txt"] = true := by decide
example : patMatches ⟨[.glob "*.txt".data], false, false⟩ ["c.txtx"] = false := by decide
example : patMatches ⟨[.lit "pyo3", .globstar], true, false⟩ ["pyo3"] = true := by decide
example : patMatches ⟨[.lit "pyo3", .globstar], true, false⟩ ["pyo3", "src", "lib.rs"] = true := by
  decide
example : patMatches ⟨[.lit "pyo3"], true, true⟩ ["pyo3"] = true := by decide
example : patMatches ⟨[.lit "pyo3"], true, true⟩ ["pyo3", "src", "lib.rs"] = true := by decide
example : patMatches ⟨[.lit "pyo3", .globstar], true, false⟩ ["other", "unrelated.txt"] = false := by
  decide
example : patMatches ⟨[.lit "pyo3"], true, true⟩ ["README.md"] = false := by decide

/-! ## Trees and the merge engine

Modelled from the spec: `vendor_status`, `vendor_fetch` (after its
preflight) and `vendor_merge` are `todo!()` stubs in src/lib.rs (lines
119, 137, 147); the TreeFilter and MergeEngine behaviour below follows
spec §4.2-§4.3.  A tree is modelled extensionally as an association list
from blob paths (segment lists) to blob contents; content-addressing and
structural sharing concern object identity, not the per-path content the
claims are about. -/

/-- A tree as a finite path-to-blob-content map. -/
abbrev TreeMap := List (List String × String)

/-- First-match association lookup on a tree. -/
def lookupPath : TreeMap → List String → Option String
  | [], _ => none
  | (k, v) :: rest, q => if k = q then some v else lookupPath rest q

/-- First-match association lookup with string keys (for remote-tracking
trees and merge-base markers keyed by dependency pattern, and for the
upstream url-to-tree environment). -/
def lookupBy {α : Type} : List (String × α) → String → Option α
  | [], _ => none
  | (k, v) :: rest, q => if k = q then some v else lookupBy rest q

/-- The paths (keys) of a tree. -/
def keysOf (t : TreeMap) : List (List String) := t.map Prod.fst

/-- Build a tree from a content function over a list of candidate paths. -/
def buildTree (f : List String → Option String) (qs : List (List String)) : TreeMap :=
  qs.filterMap (fun q => (f q).map (fun c => (q, c)))

/-- `TreeFilter.filter` extensionally (spec §4.2): a blob path is retained
iff the pattern matches it. -/
def filterTree (p : Pattern) (t : TreeMap) : TreeMap :=
  t.filter (fun e => patMatches p e.1)

/-- `startsWithSegs r q`: the segment list `r` is an initial run of `q`. -/
def startsWithSegs : List String → List String → Bool
  | [], _ => true
  | _ :: _, [] => false
  | a :: as, b :: bs => a = b && startsWithSegs as bs

/-- Substitute the root `root` of a path by `repl` (spec §4.3 step 2b:
"substituting the pattern's static prefix … for the destination root");
paths outside `root` are returned unchanged. -/
def replaceRoot (root repl q : List String) : List String :=
  if startsWithSegs root q then repl ++ q.drop root.length else q

/-- The pattern's static literal leading directory (spec §3
`VendorDependency`: the destination when no explicit `prefix` is given). -/
def staticLeadSegs : List SegMatcher → List String
  | .lit l :: rest => l :: staticLeadSegs rest
  | _ => []

/-- Map a host path into the vendor source's path space. -/
def hostToSrc (src dst q : List String) : List String := replaceRoot dst src q

/-- Map a vendor-source path into the host's path space. -/
def srcToHost (src dst q : List String) : List String := replaceRoot src dst q

/-- Per-path outcome of a three-way merge. -/
inductive PathOutcome where
  | take : Option String → PathOutcome
  | conflict : PathOutcome
deriving DecidableEq

/-- Three-way per-path rule (spec §4.3 step 2e): unchanged-in-theirs keeps
ours, changed-only-in-theirs takes theirs, changed-only-in-ours keeps
ours, changed in both with differing results is a conflict. -/
def threeWay (b o t : Option String) : PathOutcome :=
  if t = b then .take o
  else if o = b then .take t
  else if o = t then .take o
  else .conflict

/-- Is the outcome a conflict? -/
def isConflictB : PathOutcome → Bool
  | .conflict => true
  | _ => false

/-- Is the host path `q` inside the dependency's destination subtree? -/
def destMatch (pat : Pattern) (src dst q : List String) : Bool :=
  patMatches pat (hostToSrc src dst q)

/-- The upstream ("theirs") view at a host path: the filtered vendor tree
expressed in host path-space (spec §4.3 step 2b). -/
def theirsAt (pat : Pattern) (src dst : List String) (vendT : TreeMap)
    (q : List String) : Option String :=
  let qs := hostToSrc src dst q
  if patMatches pat qs then lookupPath vendT qs else none

/-- Merged content at a host path (spec §4.3 steps 2c-2f): inside the
destination the three-way rule applies with ours = the host's HEAD
content there and base = the recorded merge-base fragment; a conflicted
path is not written as a merged blob and keeps the HEAD content; outside
the destination everything passes through from HEAD untouched. -/
def mergedContent (pat : Pattern) (src dst : List String)
    (base headT vendT : TreeMap) (q : List String) : Option String :=
  if destMatch pat src dst q then
    match threeWay (lookupPath base q) (lookupPath headT q) (theirsAt pat src dst vendT q) with
    | .take v => v
    | .conflict => lookupPath headT q
  else lookupPath headT q

/-- Candidate host paths of one dependency merge: every path present in
base, HEAD, or the remapped vendor tree. -/
def candPaths (src dst : List String) (base headT vendT : TreeMap) : List (List String) :=
  (keysOf base ++ keysOf headT ++ (keysOf vendT).map (srcToHost src dst)).dedup

/-- The host tree after merging one dependency. -/
def mergeDepTree (pat : Pattern) (src dst : List String)
    (base headT vendT : TreeMap) : TreeMap :=
  buildTree (mergedContent pat src dst base headT vendT) (candPaths src dst base headT vendT)

/-- The conflicted destination paths of one dependency merge. -/
def depConflictList (pat : Pattern) (src dst : List String)
    (base headT vendT : TreeMap) : List (List String) :=
  (candPaths src dst base headT vendT).filter (fun q =>
    destMatch pat src dst q &&
      isConflictB (threeWay (lookupPath base q) (lookupPath headT q)
        (theirsAt pat src dst vendT q)))

/-! ## Repository state and the five `Vendor` operations -/

/-- The repository state the `Vendor` operations act on.  `attrs` is the
content (line list) of the `.gitattributes` file located by
`find_gitattributes` (src/lib.rs lines 205-226), `none` when absent;
`indexClean` is the object-store collaborator's `index_matches_tree(HEAD)`
(spec §6); `fetchedTrees` are the remote-tracking trees keyed by
dependency pattern; `mergeBases` the per-dependency `MergeBaseMarker`
filtered trees (spec §3). -/
structure HostRepo where
  bare : Bool
  indexClean : Bool
  attrs : Option (List String)
  head : TreeMap
  work : TreeMap
  fetchedTrees : List (String × TreeMap)
  mergeBases : List (String × TreeMap)
deriving DecidableEq

/-- `MergeReport` (spec §3), without the optional commit id. -/
structure MergeReport where
  conflicts : List (List String)
  applied : Bool
deriving DecidableEq

/-- The error message of `require_non_bare` (src/lib.rs lines 169-177). -/
def bareMsg : String := "This operation is not supported in a bare repository"

/-- Join tokens with single spaces (the written attribute line). -/
def joinTokens : List String → String
  | [] => ""
  | [t] => t
  | t :: rest => t ++ " " ++ joinTokens rest

/-- `track_pattern` (src/lib.rs lines 73-97): the bare check and the
attribute-token construction are from src; the final `set_attr` call is
the external `git_set_attr` collaborator.  Modelled from the spec: adding
the vendor attribute set for the pattern replaces any existing vendor line
for it (spec §6 attribute storage). -/
def track_pattern_model (r : HostRepo) (pat url : String)
    (maybe_reference maybe_pfx : Option String) : Except GitError HostRepo :=
  if r.bare then .error ⟨bareMsg⟩
  else
    let attrToks := ["vendored", "url=" ++ url]
      ++ (match maybe_pfx with | some p => ["prefix=" ++ p] | none => [])
      ++ (match maybe_reference with | some b => ["branch=" ++ b] | none => [])
    let old := r.attrs.getD []
    .ok { r with attrs := some (remove_vendor_lines old pat ++ [joinTokens (pat :: attrToks)]) }

/-- `untrack_pattern` (src/lib.rs lines 99-108): bare check; a missing
`.gitattributes` is a no-op `Ok` that does not create the file; otherwise
`remove_vendor_lines` rewrites it. -/
def untrack_pattern_model (r : HostRepo) (pat : String) : Except GitError HostRepo :=
  if r.bare then .error ⟨bareMsg⟩
  else match r.attrs with
    | none => .ok r
    | some lines => .ok { r with attrs := some (remove_vendor_lines lines pat) }

/-- One dependency's status report (spec §4.3 `vendor_status`). -/
structure DepStatus where
  dep : VendorDep
  fetchedExists : Bool
  differs : Bool
deriving DecidableEq

/-- Status of one dependency.  Modelled from the spec: whether a fetched
reference exists and whether its filtered content differs from the
current filtered HEAD content. -/
def statusOf (r : HostRepo) (d : VendorDep) : DepStatus :=
  match lookupBy r.fetchedTrees d.pattern with
  | none => ⟨d, false, false⟩
  | some t =>
    ⟨d, true,
      match compilePattern d.pattern with
      | none => false
      | some pat => decide (filterTree pat t ≠ filterTree pat r.head)⟩

/-- `vendor_status` (src/lib.rs lines 110-120): the bare check, parse and
filter are from src; the reporting after the `todo!()` at line 119 is
modelled from the spec — read-only, one report per selected dependency,
no state mutated (the input repository is returned unchanged). -/
def vendor_status_model (r : HostRepo) (mp : Option String) :
    Except GitError (HostRepo × List DepStatus) :=
  if r.bare then .error ⟨bareMsg⟩
  else
    match parse_vendor_deps r.attrs with
    | .error e => .error e
    | .ok deps0 => .ok (r, (filter_deps deps0 mp).map (statusOf r))

/-- Resolve each selected dependency's upstream tree by url, pairing it
with the dependency's pattern (the remote-tracking ref update). -/
def resolveFetches (up : List (String × TreeMap)) : List VendorDep →
    Option (List (String × TreeMap))
  | [] => some []
  | d :: rest =>
    match lookupBy up d.url, resolveFetches up rest with
    | some t, some l => some ((d.pattern, t) :: l)
    | _, _ => none

/-- `vendor_fetch` (src/lib.rs lines 122-140): bare check, parse, filter
and the `"No vendored dependencies to fetch"` error are from src; the
actual fetching after the `todo!()` at line 137 is modelled from the
spec — update each dependency's remote-tracking reference, touching
neither working tree nor index.  `up` is the network environment mapping
urls to upstream HEAD trees. -/
def vendor_fetch_model (r : HostRepo) (up : List (String × TreeMap))
    (mp : Option String) : Except GitError HostRepo :=
  if r.bare then .error ⟨bareMsg⟩
  else
    match parse_vendor_deps r.attrs with
    | .error e => .error e
    | .ok deps0 =>
      let deps := filter_deps deps0 mp
      if deps = [] then .error ⟨"No vendored dependencies to fetch"⟩
      else
        match resolveFetches up deps with
        | none => .error ⟨"Failed to fetch vendor source"⟩
        | some fts => .ok { r with fetchedTrees := fts ++ r.fetchedTrees }

/-- Lexicographic character comparison for the deterministic dependency
order (spec §4.3 step 2: lexical order of `pattern`). -/
def lexLe : List Char → List Char → Bool
  | [], _ => true
  | _ :: _, [] => false
  | a :: as, b :: bs => if a = b then lexLe as bs else decide (a.toNat < b.toNat)

/-- String order by character code. -/
def strLeB (a b : String) : Bool := lexLe a.data b.data

/-- Insertion into a pattern-sorted dependency list. -/
def insertByPattern (d : VendorDep) : List VendorDep → List VendorDep
  | [] => [d]
  | e :: rest =>
    if strLeB d.pattern e.pattern then d :: e :: rest else e :: insertByPattern d rest

/-- Sort dependencies by pattern (spec §4.3 step 2). -/
def sortByPattern : List VendorDep → List VendorDep
  | [] => []
  | d :: rest => insertByPattern d (sortByPattern rest)

/-- The per-dependency merge loop (spec §4.3 step 2), threading the
accumulated host tree, conflict list and new merge-base markers; later
dependencies observe the tree left by earlier ones (spec §5).  Fails
`MissingFetch` when a dependency has no fetched reference. -/
def mergeLoop (fetched bases : List (String × TreeMap)) :
    TreeMap → List (List String) → List (String × TreeMap) → List VendorDep →
    Except GitError (TreeMap × List (List String) × List (String × TreeMap))
  | headT, confs, newBases, [] => .ok (headT, confs, newBases)
  | headT, confs, newBases, d :: rest =>
    match lookupBy fetched d.pattern with
    | none => .error ⟨"MissingFetch: no fetched reference for " ++ d.pattern⟩
    | some vendT =>
      match compilePattern d.pattern with
      | none => .error ⟨"InvalidPattern: " ++ d.pattern⟩
      | some pat =>
        let src := staticLeadSegs pat.segments
        let dst := match d.pfx with
          | none => src
          | some p => (splitSlashCore p.data []).map (fun l => (⟨l⟩ : String))
        let base := (lookupBy bases d.pattern).getD []
        let newHead := mergeDepTree pat src dst base headT vendT
        mergeLoop fetched bases newHead
          (confs ++ depConflictList pat src dst base headT vendT)
          (newBases ++ [(d.pattern, newHead.filter (fun e => destMatch pat src dst e.1))])
          rest

/-- `vendor_merge` (src/lib.rs lines 142-148) is entirely a `todo!()`
stub in src; modelled from the spec (§4.3): preflight (bare repository,
dependency resolution with the `"No vendored dependencies to merge"`
error, dirty-index rejection with a message containing
`"uncommitted changes"`), per-dependency three-way merge in lexical
pattern order, then either a clean commit (HEAD and working tree set to
the merged tree, merge bases updated) or a conflict report that leaves
HEAD untouched. -/
def vendor_merge_model (r : HostRepo) (mp : Option String) :
    Except GitError (HostRepo × MergeReport) :=
  if r.bare then .error ⟨bareMsg⟩
  else
    match parse_vendor_deps r.attrs with
    | .error e => .error e
    | .ok deps0 =>
      let deps := filter_deps deps0 mp
      if deps = [] then .error ⟨"No vendored dependencies to merge"⟩
      else if r.indexClean = false then
        .error ⟨"cannot vendor merge: you have uncommitted changes in the index"⟩
      else
        match mergeLoop r.fetchedTrees r.mergeBases r.head [] [] (sortByPattern deps) with
        | .error e => .error e
        | .ok (newHead, confs, newBases) =>
          if confs = [] then
            .ok ({ r with head := newHead, work := newHead,
                          mergeBases := newBases ++ r.mergeBases }, ⟨[], true⟩)
          else
            .ok ({ r with work := newHead, indexClean := false }, ⟨confs, false⟩)

/-! ## Token-level views used to state the parsing claims -/

/-- The line carries the `vendored` marker among its attribute tokens
(every token after the first, which is the pattern). -/
def hasVendoredTok (line : String) : Bool :=
  ((lineTokens line).drop 1).any (fun t => decide (t = "vendored"))

/-- The line carries a `url=` attribute token. -/
def hasUrlTok (line : String) : Bool :=
  ((lineTokens line).drop 1).any (fun t => strStartsWith t "url=")

/-- The line carries a `branch=` attribute token. -/
def hasBranchTok (line : String) : Bool :=
  ((lineTokens line).drop 1).any (fun t => strStartsWith t "branch=")

/-- A host repository whose HEAD holds an unmatched `README.md` and a
destination blob `pyo3/x` that differs from upstream. -/
def conflictHost : HostRepo :=
  ⟨false, true, some ["pyo3/** vendored url=u branch=main"],
   [(["README.md"], "# My Project"), (["pyo3", "x"], "A")],
   [(["README.md"], "# My Project"), (["pyo3", "x"], "A")],
   [], []⟩

/-- An upstream whose `pyo3/x` conflicts with the host's. -/
def conflictUp : List (String × TreeMap) :=
  [("u", [(["pyo3", "x"], "B"), (["other", "unrelated.txt"], "C")])]

/-! ## Helper lemmas -/

theorem lookupPath_mem {t : TreeMap} {q : List String} {c : String}
    (h : lookupPath t q = some c) : q ∈ keysOf t := by
  induction t with
  | nil => simp [lookupPath] at h
  | cons e rest ih =>
    obtain ⟨k, v⟩ := e
    by_cases hk : k = q
    · subst hk; simp [keysOf]
    · simp only [lookupPath, if_neg hk] at h
      simp [keysOf] at ih ⊢
      exact Or.inr (by simpa [keysOf] using ih h)

theorem lookupPath_eq_none_of_not_mem {t : TreeMap} {q : List String}
    (h : q ∉ keysOf t) : lookupPath t q = none := by
  cases hl : lookupPath t q with
  | none => rfl
  | some c => exact absurd (lookupPath_mem hl) h

theorem lookupPath_buildTree (f : List String → Option String)
    (l : List (List String)) (hl : l.Nodup) (q : List String) :
    lookupPath (buildTree f l) q = if q ∈ l then f q else none := by
  induction l with
  | nil => simp [buildTree, lookupPath]
  | cons a l' ih =>
    have hnd := (List.nodup_cons.mp hl).2
    have hna := (List.nodup_cons.mp hl).1
    cases hfa : f a with
    | some c =>
      by_cases hq : a = q
      · subst hq
        simp [buildTree, hfa, lookupPath, ih hnd]
      · simp only [buildTree, List.filterMap_cons, hfa, Option.map_some]
        simp only [lookupPath, if_neg hq]
        have hrec := ih hnd
        simp only [buildTree] at hrec
        rw [hrec]
        have hmem : (q ∈ a :: l') ↔ q ∈ l' := by
          simp only [List.mem_cons, or_iff_right_iff_imp]
          intro h; exact absurd h.symm hq
        simp [hmem]
    | none =>
      simp only [buildTree, List.filterMap_cons, hfa, Option.map_none']
      have hrec := ih hnd
      simp only [buildTree] at hrec
      rw [hrec]
      by_cases hq : q = a
      · subst hq
        simp [hna, hfa]
      · simp [List.mem_cons, hq]

theorem startsWithSegs_append_drop {s q : List String}
    (h : startsWithSegs s q = true) : s ++ q.drop s.length = q := by
  induction s generalizing q with
  | nil => simp
  | cons a as ih =>
    cases q with
    | nil => simp [startsWithSegs] at h
    | cons b bs =>
      simp only [startsWithSegs, Bool.and_eq_true, decide_eq_true_eq] at h
      obtain ⟨rfl, h2⟩ := h
      simp [ih h2]

theorem replaceRoot_self (s q : List String) : replaceRoot s s q = q := by
  unfold replaceRoot
  by_cases h : startsWithSegs s q = true
  · simp [h, startsWithSegs_append_drop h]
  · simp [h]

theorem hostToSrc_self (s q : List String) : hostToSrc s s q = q :=
  replaceRoot_self s q

theorem srcToHost_self (s q : List String) : srcToHost s s q = q :=
  replaceRoot_self s q

theorem scanAttr_is_vendored (a : LineAttrs) (t : String) :
    (scanAttr a t).is_vendored = (a.is_vendored || decide (t = "vendored")) := by
  unfold scanAttr
  by_cases h1 : t = "vendored" <;>
    by_cases h2 : strStartsWith t "url=" = true <;>
      by_cases h3 : strStartsWith t "branch=" = true <;>
        by_cases h4 : strStartsWith t "prefix=" = true <;>
          simp [h1, h2, h3, h4]

theorem foldl_is_vendored (attrs : List String) (a : LineAttrs) :
    (attrs.foldl scanAttr a).is_vendored
      = (a.is_vendored || attrs.any (fun t => decide (t = "vendored"))) := by
  induction attrs generalizing a with
  | nil => simp
  | cons t rest ih =>
    simp only [List.foldl_cons, List.any_cons]
    rw [ih, scanAttr_is_vendored, Bool.or_assoc]

theorem scanAttr_url_isSome (a : LineAttrs) (t : String) :
    (scanAttr a t).url.isSome = (a.url.isSome || strStartsWith t "url=") := by
  unfold scanAttr
  by_cases h1 : t = "vendored"
  · subst h1
    have hv : strStartsWith "vendored" "url=" = false := by decide
    simp [hv]
  · by_cases h2 : strStartsWith t "url=" = true <;>
      by_cases h3 : strStartsWith t "branch=" = true <;>
        by_cases h4 : strStartsWith t "prefix=" = true <;>
          simp [h1, h2, h3, h4]

theorem foldl_url_isSome (attrs : List String) (a : LineAttrs) :
    (attrs.foldl scanAttr a).url.isSome
      = (a.url.isSome || attrs.any (fun t => strStartsWith t "url=")) := by
  induction attrs generalizing a with
  | nil => simp
  | cons t rest ih =>
    simp only [List.foldl_cons, List.any_cons]
    rw [ih, scanAttr_url_isSome, Bool.or_assoc]

theorem scanAttr_branch_of_not (a : LineAttrs) (t : String)
    (h : strStartsWith t "branch=" = false) : (scanAttr a t).branch = a.branch := by
  unfold scanAttr
  by_cases h1 : t = "vendored" <;>
    by_cases h2 : strStartsWith t "url=" = true <;>
      by_cases h4 : strStartsWith t "prefix=" = true <;>
        simp [h1, h2, h, h4]

theorem foldl_branch_of_not (attrs : List String) (a : LineAttrs)
    (h : attrs.any (fun t => strStartsWith t "branch=") = false) :
    (attrs.foldl scanAttr a).branch = a.branch := by
  induction attrs generalizing a with
  | nil => rfl
  | cons t rest ih =>
    simp only [List.any_cons, Bool.or_eq_false_iff] at h
    simp only [List.foldl_cons]
    rw [ih _ h.2, scanAttr_branch_of_not a t h.1]

theorem startsWithChars_cons {a : Char} {as l : List Char}
    (h : startsWithChars (a :: as) l = true) : ∃ tl, l = a :: tl := by
  cases l with
  | nil => simp [startsWithChars] at h
  | cons b bs =>
    simp only [startsWithChars, Bool.and_eq_true, decide_eq_true_eq] at h
    exact ⟨bs, by rw [h.1]⟩

theorem parse_vendor_deps_eq_ok (a : Option (List String)) :
    parse_vendor_deps a
      = .ok (match a with | none => [] | some ls => vendorDepsOfLines ls) := by
  cases a <;> rfl

theorem map_srcToHost_self (s : List String) (l : List (List String)) :
    l.map (srcToHost s s) = l := by
  induction l with
  | nil => rfl
  | cons a t ih => simp [srcToHost_self, ih]

/-! ## Claims -/

/-- C5: the claim says `untrack_pattern` leaves non-vendor attributes that
share a line with vendor attributes in place.  The code
(`remove_vendor_lines`, src/lib.rs lines 302-309, with the FIXME at line
305) drops the entire line: here the non-vendor `diff` attribute of
`*.txt` is lost, while the line for the other pattern is kept verbatim. -/
theorem untrack_drops_shared_attr_line :
    remove_vendor_lines ["*.txt vendored url=https://a.com diff", "*.md diff"] "*.txt"
      = ["*.md diff"] ∧
    is_vendor_line_for_pattern "*.txt vendored url=https://a.com diff" "*.txt" = true := by
  decide

/-- C8: dependency selection (`filter_deps`, src/lib.rs lines 352-358)
with no filter is the identity; with a filter it keeps exactly the
dependencies whose pattern equals the filter character-for-character, in
their original order (a sublist), with no glob expansion or partial
match. -/
theorem filter_deps_spec :
    (∀ deps : List VendorDep, filter_deps deps none = deps) ∧
    (∀ (deps : List VendorDep) (f : String), (filter_deps deps (some f)).Sublist deps) ∧
    (∀ (deps : List VendorDep) (f : String) (d : VendorDep),
      d ∈ filter_deps deps (some f) ↔ d ∈ deps ∧ d.pattern.data = f.data) := by
  refine ⟨fun deps => rfl, fun deps f => ?_, fun deps f d => ?_⟩
  · exact List.filter_sublist deps
  · simp only [filter_deps, List.mem_filter, decide_eq_true_eq]
    exact ⟨fun h => ⟨h.1, congrArg String.data h.2⟩, fun h => ⟨h.1, String.ext h.2⟩⟩

/-- C9: a missing `.gitattributes` file is treated as empty, not as an
error: `parse_vendor_deps` on a nonexistent path returns `Ok []`
(src/lib.rs lines 234-236), and `untrack_pattern` without the file
returns `Ok` leaving the repository unchanged — in particular, not
creating the file (src/lib.rs lines 103-105). -/
theorem missing_gitattributes_is_noop :
    parse_vendor_deps none = Except.ok ([] : List VendorDep) ∧
    (∀ (r : HostRepo) (p : String), r.bare = false → r.attrs = none →
      untrack_pattern_model r p = .ok r) := by
  refine ⟨rfl, fun r p hb ha => ?_⟩
  simp [untrack_pattern_model, hb, ha]

/-- Witness for C9 at a concrete non-bare repository with no
`.gitattributes`. -/
theorem missing_gitattributes_is_noop_witness :
    untrack_pattern_model ⟨false, true, none, [], [], [], []⟩ "*.txt"
      = .ok ⟨false, true, none, [], [], [], []⟩ :=
  missing_gitattributes_is_noop.2 ⟨false, true, none, [], [], [], []⟩ "*.txt" rfl rfl

/-- C10: `parse_vendor_deps` never reads a `name=` attribute: removing (or
inserting) a `name=…` token anywhere in a line's attribute list leaves the
parse result unchanged, so two lines differing only in their `name=`
value parse to equal `VendorDep` records and `name=` has no effect on
whether a line is recognized (src/lib.rs lines 19-25, 263-273). -/
theorem parse_ignores_name_attr :
    ∀ (patTok n : String) (pre post : List String),
      strStartsWith n "name=" = true →
      parseTokens (patTok :: (pre ++ n :: post)) = parseTokens (patTok :: (pre ++ post)) := by
  intro patTok n pre post hn
  unfold strStartsWith at hn
  have hdat : ("name=".data) = 'n' :: "ame=".data := rfl
  rw [hdat] at hn
  obtain ⟨tl, htl⟩ := startsWithChars_cons hn
  have hscan : ∀ a : LineAttrs, scanAttr a n = a := by
    intro a
    have h1 : n ≠ "vendored" := by
      intro h
      have hh : ("vendored".data).head? = some 'n' := by rw [← h, htl]; rfl
      exact absurd hh (by decide)
    have h2 : strStartsWith n "url=" = false := by
      unfold strStartsWith; rw [htl]; rfl
    have h3 : strStartsWith n "branch=" = false := by
      unfold strStartsWith; rw [htl]; rfl
    have h4 : strStartsWith n "prefix=" = false := by
      unfold strStartsWith; rw [htl]; rfl
    unfold scanAttr
    simp [h1, h2, h3, h4]
  simp only [parseTokens]
  rw [List.foldl_append, List.foldl_cons, hscan, ← List.foldl_append]

/-- Witness for C10: dropping `name=o/r1` from a concrete attribute list
does not change the parse. -/
theorem parse_ignores_name_attr_witness :
    parseTokens ["*.txt", "vendored", "name=o/r1", "url=u"]
      = parseTokens ["*.txt", "vendored", "url=u"] :=
  parse_ignores_name_attr "*.txt" "name=o/r1" ["vendored"] ["url=u"] (by decide)

/-- C6: `parse_vendor_deps` yields dependencies in file-line order
(parsing distributes over concatenation of line lists); a non-blank,
non-comment line produces a `VendorDep` exactly when its attribute tokens
carry the `vendored` marker and a `url=` attribute; and when no `branch=`
attribute is present the parsed `reference` is `None` (src/lib.rs lines
243-286). -/
theorem parse_vendor_deps_line_spec :
    (∀ l1 l2 : List String,
      vendorDepsOfLines (l1 ++ l2) = vendorDepsOfLines l1 ++ vendorDepsOfLines l2) ∧
    (∀ line : String, trimStr line ≠ "" → strStartsWith (trimStr line) "#" = false →
      ((parseLine line).isSome ↔ (hasVendoredTok line = true ∧ hasUrlTok line = true))) ∧
    (∀ (line : String) (d : VendorDep),
      parseLine line = some d → hasBranchTok line = false → d.reference = none) := by
  refine ⟨fun l1 l2 => List.filterMap_append l1 l2 parseLine, ?_, ?_⟩
  · intro line h1 h2
    simp only [parseLine]
    rw [if_neg h1, if_neg (by simp [h2])]
    cases htoks : lineTokens line with
    | nil => simp [parseTokens, hasVendoredTok, hasUrlTok, htoks]
    | cons pat attrs =>
      simp only [parseTokens, hasVendoredTok, hasUrlTok, htoks,
        List.drop_succ_cons, List.drop_zero]
      have hv := foldl_is_vendored attrs ⟨none, none, none, false⟩
      have hu := foldl_url_isSome attrs ⟨none, none, none, false⟩
      simp only [Bool.false_or, Option.isSome_none] at hv hu
      rw [← hv, ← hu]
      cases hiv : (attrs.foldl scanAttr ⟨none, none, none, false⟩).is_vendored <;>
        cases hurl : (attrs.foldl scanAttr ⟨none, none, none, false⟩).url <;>
          simp [hiv, hurl]
  · intro line d hp hbr
    simp only [parseLine] at hp
    by_cases h1 : trimStr line = ""
    · simp [h1] at hp
    · rw [if_neg h1] at hp
      by_cases h2 : strStartsWith (trimStr line) "#" = true
      · simp [h2] at hp
      · rw [if_neg h2] at hp
        cases htoks : lineTokens line with
        | nil => rw [htoks] at hp; simp [parseTokens] at hp
        | cons pat attrs =>
          rw [htoks] at hp
          simp only [parseTokens] at hp
          unfold hasBranchTok at hbr
          rw [htoks] at hbr
          simp only [List.drop_succ_cons, List.drop_zero] at hbr
          have hbranch := foldl_branch_of_not attrs ⟨none, none, none, false⟩ hbr
          cases hiv : (attrs.foldl scanAttr ⟨none, none, none, false⟩).is_vendored
          · rw [hiv] at hp; simp at hp
          · rw [hiv] at hp
            cases hurl : (attrs.foldl scanAttr ⟨none, none, none, false⟩).url with
            | none => rw [hurl] at hp; simp at hp
            | some u =>
              rw [hurl] at hp
              simp only [if_true, Option.some.injEq] at hp
              rw [← hp]
              exact hbranch

/-- Witness for C6 at a concrete vendor line and a concrete line-list
concatenation. -/
theorem parse_vendor_deps_line_spec_witness :
    (parseLine "a vendored url=x").isSome = true ∧
    vendorDepsOfLines (["a vendored url=x"] ++ ["# c"])
      = vendorDepsOfLines ["a vendored url=x"] ++ vendorDepsOfLines ["# c"] := by
  constructor
  · exact (parse_vendor_deps_line_spec.2.1 "a vendored url=x" (by decide) (by decide)).mpr
      ⟨by decide, by decide⟩
  · exact parse_vendor_deps_line_spec.1 ["a vendored url=x"] ["# c"]

/-- C2: every one of the five operations fails on a bare repository.  The
bare check of `track_pattern`, `untrack_pattern`, `vendor_status` and
`vendor_fetch` is `require_non_bare` in src (src/lib.rs lines 80, 100,
111, 127, 169-177); `vendor_merge` is a stub in src, and its preflight
bare rejection is modelled from spec §4.3 step 1. -/
theorem bare_repo_rejects_all_operations (r : HostRepo) (hb : r.bare = true)
    (p u : String) (mref mpfx mp : Option String) (up : List (String × TreeMap)) :
    track_pattern_model r p u mref mpfx = .error ⟨bareMsg⟩ ∧
    untrack_pattern_model r p = .error ⟨bareMsg⟩ ∧
    vendor_status_model r mp = .error ⟨bareMsg⟩ ∧
    vendor_fetch_model r up mp = .error ⟨bareMsg⟩ ∧
    vendor_merge_model r mp = .error ⟨bareMsg⟩ := by
  refine ⟨?_, ?_, ?_, ?_, ?_⟩ <;>
    simp [track_pattern_model, untrack_pattern_model, vendor_status_model,
      vendor_fetch_model, vendor_merge_model, hb]

/-- Witness for C2 at a concrete bare repository. -/
theorem bare_repo_rejects_all_operations_witness :
    track_pattern_model ⟨true, true, none, [], [], [], []⟩ "p" "u" none none
        = .error ⟨bareMsg⟩ ∧
    untrack_pattern_model ⟨true, true, none, [], [], [], []⟩ "p" = .error ⟨bareMsg⟩ ∧
    vendor_status_model ⟨true, true, none, [], [], [], []⟩ none = .error ⟨bareMsg⟩ ∧
    vendor_fetch_model ⟨true, true, none, [], [], [], []⟩ [] none = .error ⟨bareMsg⟩ ∧
    vendor_merge_model ⟨true, true, none, [], [], [], []⟩ none = .error ⟨bareMsg⟩ :=
  bare_repo_rejects_all_operations ⟨true, true, none, [], [], [], []⟩ rfl "p" "u"
    none none none []

/-- C3: on a non-bare repository whose selected dependency set is empty,
`vendor_fetch None` fails with a message containing
"No vendored dependencies to fetch" (src/lib.rs lines 133-135) and
`vendor_merge None` with one containing "No vendored dependencies to
merge" (modelled from spec §4.3 step 1); the error is returned before any
state is produced, so nothing is mutated. -/
theorem no_dependencies_fetch_merge_errors (r : HostRepo)
    (up : List (String × TreeMap)) (hb : r.bare = false)
    (he : selectDeps r.attrs none = []) :
    (∃ e : GitError, vendor_fetch_model r up none = .error e ∧
      strContains e.msg "No vendored dependencies to fetch" = true) ∧
    (∃ e : GitError, vendor_merge_model r none = .error e ∧
      strContains e.msg "No vendored dependencies to merge" = true) := by
  have hd : (match r.attrs with
      | none => ([] : List VendorDep) | some ls => vendorDepsOfLines ls) = [] := by
    simpa [selectDeps, filter_deps] using he
  constructor
  · exact ⟨⟨"No vendored dependencies to fetch"⟩,
      by simp [vendor_fetch_model, hb, parse_vendor_deps_eq_ok, hd, filter_deps],
      by decide⟩
  · exact ⟨⟨"No vendored dependencies to merge"⟩,
      by simp [vendor_merge_model, hb, parse_vendor_deps_eq_ok, hd, filter_deps],
      by decide⟩

/-- Witness for C3 at a concrete non-bare repository with no declared
dependencies. -/
theorem no_dependencies_fetch_merge_errors_witness :
    (∃ e : GitError, vendor_fetch_model ⟨false, true, none, [], [], [], []⟩ [] none
        = .error e ∧ strContains e.msg "No vendored dependencies to fetch" = true) ∧
    (∃ e : GitError, vendor_merge_model ⟨false, true, none, [], [], [], []⟩ none
        = .error e ∧ strContains e.msg "No vendored dependencies to merge" = true) :=
  no_dependencies_fetch_merge_errors ⟨false, true, none, [], [], [], []⟩ [] rfl (by decide)

/-- C4 counterexample: the claim as stated quantifies over *every*
repository with a dirty index, but on a repository with no declared
dependencies the preflight fails first (spec §4.3 step 1 resolves the
dependency set before the index check), with a message that does not
contain "uncommitted changes". -/
theorem dirty_index_claim_cex :
    (⟨false, false, none, [], [], [], []⟩ : HostRepo).indexClean = false ∧
    vendor_merge_model ⟨false, false, none, [], [], [], []⟩ none
      = .error ⟨"No vendored dependencies to merge"⟩ ∧
    strContains "No vendored dependencies to merge" "uncommitted changes" = false := by
  decide

/-- C4 (amended): on a non-bare repository with at least one selected
dependency, if the index does not match HEAD's tree then `vendor_merge`
fails with an error whose message contains "uncommitted changes", before
any merge content is computed or applied (modelled from spec §4.3 step 1;
integration test `merge_rejects_dirty_index`). -/
theorem dirty_index_rejected (r : HostRepo) (mp : Option String)
    (hb : r.bare = false) (hne : selectDeps r.attrs mp ≠ []) (hd : r.indexClean = false) :
    ∃ e : GitError, vendor_merge_model r mp = .error e ∧
      strContains e.msg "uncommitted changes" = true := by
  refine ⟨⟨"cannot vendor merge: you have uncommitted changes in the index"⟩, ?_, by decide⟩
  have hne' : filter_deps (match r.attrs with
      | none => ([] : List VendorDep) | some ls => vendorDepsOfLines ls) mp ≠ [] := by
    simpa [selectDeps] using hne
  simp [vendor_merge_model, hb, parse_vendor_deps_eq_ok, hne', hd]

/-- Witness for C4's amended theorem at a concrete dirty-index repository
with one declared dependency. -/
theorem dirty_index_rejected_witness :
    ∃ e : GitError,
      vendor_merge_model ⟨false, false, some ["p vendored url=u"], [], [], [], []⟩ none
        = .error e ∧ strContains e.msg "uncommitted changes" = true :=
  dirty_index_rejected ⟨false, false, some ["p vendored url=u"], [], [], [], []⟩ none
    rfl (by decide) rfl

/-- C7: on any non-bare repository `vendor_status` succeeds, returns one
report per selected dependency (in order), and mutates nothing — the
repository value is returned unchanged (src/lib.rs lines 110-120; the
reporting after the `todo!()` stub is modelled from spec §4.3). -/
theorem vendor_status_ok_readonly (r : HostRepo) (mp : Option String)
    (hb : r.bare = false) :
    ∃ sts : List DepStatus, vendor_status_model r mp = .ok (r, sts) ∧
      sts.map (fun s => s.dep) = selectDeps r.attrs mp := by
  refine ⟨(selectDeps r.attrs mp).map (statusOf r), ?_, ?_⟩
  · simp [vendor_status_model, hb, parse_vendor_deps_eq_ok, selectDeps]
  · rw [List.map_map]
    have hid : ((fun s => DepStatus.dep s) ∘ statusOf r) = id := by
      funext d
      cases h : lookupBy r.fetchedTrees d.pattern <;> simp [statusOf, h, Function.comp]
    simp [hid]

/-- Witness for C7 at a concrete non-bare repository with one tracked
dependency. -/
theorem vendor_status_ok_readonly_witness :
    ∃ sts : List DepStatus,
      vendor_status_model ⟨false, true, some ["p vendored url=u"], [], [], [], []⟩ none
        = .ok (⟨false, true, some ["p vendored url=u"], [], [], [], []⟩, sts) ∧
      sts.map (fun s => s.dep)
        = selectDeps (some ["p vendored url=u"]) none :=
  vendor_status_ok_readonly ⟨false, true, some ["p vendored url=u"], [], [], [], []⟩
    none rfl

/-- Computation of `vendor_merge_model` on a clean single-dependency
repository given in explicit fields: one selected dependency, fetched
tree present, no merge base, no conflicts. -/
theorem vendor_merge_single_dep (attrs : Option (List String)) (hd wk : TreeMap)
    (ft mb : List (String × TreeMap)) (d : VendorDep) (pat : Pattern) (V : TreeMap)
    (hdeps : (match attrs with
      | none => ([] : List VendorDep) | some ls => vendorDepsOfLines ls) = [d])
    (hpfx : d.pfx = none) (hpat : compilePattern d.pattern = some pat)
    (hfetch : lookupBy ft d.pattern = some V)
    (hmb : lookupBy mb d.pattern = none)
    (hnoconf : depConflictList pat (staticLeadSegs pat.segments)
      (staticLeadSegs pat.segments) [] hd V = []) :
    vendor_merge_model ⟨false, true, attrs, hd, wk, ft, mb⟩ none
      = .ok (⟨false, true, attrs,
             mergeDepTree pat (staticLeadSegs pat.segments) (staticLeadSegs pat.segments)
               [] hd V,
             mergeDepTree pat (staticLeadSegs pat.segments) (staticLeadSegs pat.segments)
               [] hd V,
             ft,
             [(d.pattern,
               (mergeDepTree pat (staticLeadSegs pat.segments)
                  (staticLeadSegs pat.segments) [] hd V).filter
                 (fun e => destMatch pat (staticLeadSegs pat.segments)
                   (staticLeadSegs pat.segments) e.1))] ++ mb⟩,
           ⟨[], true⟩) := by
  unfold vendor_merge_model
  rw [parse_vendor_deps_eq_ok]
  simp only [hdeps]
  simp [filter_deps, sortByPattern, insertByPattern, mergeLoop, hfetch, hpat, hpfx,
    hmb, hnoconf]

/-- C1 counterexample: the claim quantifies over every host repository
whose HEAD contains files unmatched by the vendor pattern, but when HEAD
also holds a destination blob that differs from upstream (here `pyo3/x`:
"A" in the host, "B" upstream, first merge so the base is empty), the
three-way merge conflicts, nothing is committed, and the upstream entry
is not added: after fetch+merge `applied` is `false` and `pyo3/x` still
has content "A" in both HEAD and working tree (spec §4.3 steps 2e-3). -/
theorem merge_conflict_blocks_apply_cex :
    ((vendor_fetch_model conflictHost conflictUp none).toOption.bind
      (fun r1 => (vendor_merge_model r1 none).toOption)).map
      (fun p => (p.2.applied, lookupPath p.1.head ["pyo3", "x"],
                 lookupPath p.1.work ["pyo3", "x"],
                 lookupPath p.1.head ["README.md"]))
    = some (false, some "A", some "A", some "# My Project") := by decide

/-- C1 (amended): for a host repository with a clean index, a single
selected dependency without explicit prefix, no prior merge base, and no
HEAD path matched by the vendor pattern (so the three-way merge cannot
conflict), `vendor_fetch` followed by `vendor_merge` commits cleanly;
every unmatched path keeps its HEAD content byte-for-byte in both the new
HEAD and the working tree (in particular upstream entries outside the
pattern are not introduced), and every matched path carries exactly the
upstream content (modelled from spec §4.1-§4.3). -/
theorem vendor_merge_preserves_unrelated
    (r : HostRepo) (up : List (String × TreeMap)) (d : VendorDep) (pat : Pattern)
    (r₁ : HostRepo)
    (hb : r.bare = false) (hic : r.indexClean = true)
    (hsel : selectDeps r.attrs none = [d]) (hpfx : d.pfx = none)
    (hpat : compilePattern d.pattern = some pat)
    (hbase : r.mergeBases = [])
    (hdest : (keysOf r.head).all (fun q => !(patMatches pat q)) = true)
    (hf : vendor_fetch_model r up none = .ok r₁) :
    ∃ (V : TreeMap) (r₂ : HostRepo) (rep : MergeReport),
      lookupBy up d.url = some V ∧
      vendor_merge_model r₁ none = .ok (r₂, rep) ∧
      rep.applied = true ∧ rep.conflicts = [] ∧
      (∀ q, patMatches pat q = false →
        lookupPath r₂.head q = lookupPath r.head q ∧
        lookupPath r₂.work q = lookupPath r.head q) ∧
      (∀ q, patMatches pat q = true →
        lookupPath r₂.head q = lookupPath V q ∧
        lookupPath r₂.work q = lookupPath V q) := by
  have hdeps : (match r.attrs with
      | none => ([] : List VendorDep) | some ls => vendorDepsOfLines ls) = [d] := by
    simpa [selectDeps, filter_deps] using hsel
  cases hV : lookupBy up d.url with
  | none =>
    have hres : resolveFetches up [d] = none := by simp [resolveFetches, hV]
    unfold vendor_fetch_model at hf
    rw [parse_vendor_deps_eq_ok, hdeps, hb] at hf
    simp [filter_deps, hres] at hf
  | some V =>
    have hres : resolveFetches up [d] = some [(d.pattern, V)] := by
      simp [resolveFetches, hV]
    unfold vendor_fetch_model at hf
    rw [parse_vendor_deps_eq_ok, hdeps, hb] at hf
    simp [filter_deps, hres] at hf
    subst hf
    rw [hic, hbase]
    -- per-path facts inside the destination
    have hheadnone : ∀ q, patMatches pat q = true → lookupPath r.head q = none := by
      intro q hm
      apply lookupPath_eq_none_of_not_mem
      intro hqmem
      have hq := List.all_eq_true.mp hdest q hqmem
      simp [hm] at hq
    have hval : ∀ t : Option String, threeWay none none t = .take t := by
      intro t; cases t <;> simp [threeWay]
    have hnoconf : depConflictList pat (staticLeadSegs pat.segments)
        (staticLeadSegs pat.segments) [] r.head V = [] := by
      unfold depConflictList
      rw [List.filter_eq_nil_iff]
      intro q _
      simp only [destMatch, hostToSrc_self, Bool.and_eq_true, not_and]
      intro hm
      rw [show lookupPath [] q = none from rfl, hheadnone q hm]
      unfold theirsAt
      simp only [hostToSrc_self, hm, if_true]
      rw [hval]
      simp [isConflictB]
    have hfetch1 : lookupBy ((d.pattern, V) :: r.fetchedTrees) d.pattern = some V := by
      simp [lookupBy]
    have hlook : ∀ q, lookupPath (mergeDepTree pat (staticLeadSegs pat.segments)
          (staticLeadSegs pat.segments) [] r.head V) q
        = if q ∈ candPaths (staticLeadSegs pat.segments) (staticLeadSegs pat.segments)
            [] r.head V
          then mergedContent pat (staticLeadSegs pat.segments)
            (staticLeadSegs pat.segments) [] r.head V q
          else none := by
      intro q
      unfold mergeDepTree
      exact lookupPath_buildTree _ _ (List.nodup_dedup _) q
    have hmemc : ∀ x, x ∈ candPaths (staticLeadSegs pat.segments)
          (staticLeadSegs pat.segments) [] r.head V
        ↔ (x ∈ keysOf r.head ∨ x ∈ keysOf V) := by
      intro x
      unfold candPaths
      rw [List.mem_dedup, map_srcToHost_self]
      simp [keysOf]
    have hmcF : ∀ q, patMatches pat q = false →
        mergedContent pat (staticLeadSegs pat.segments) (staticLeadSegs pat.segments)
          [] r.head V q = lookupPath r.head q := by
      intro q hm
      unfold mergedContent
      simp [destMatch, hostToSrc_self, hm]
    have hmcT : ∀ q, patMatches pat q = true →
        mergedContent pat (staticLeadSegs pat.segments) (staticLeadSegs pat.segments)
          [] r.head V q = lookupPath V q := by
      intro q hm
      unfold mergedContent
      simp only [destMatch, hostToSrc_self, hm, if_true]
      unfold theirsAt
      simp only [hostToSrc_self, hm, if_true]
      rw [show lookupPath [] q = none from rfl, hheadnone q hm, hval]
    have hlookF : ∀ q, patMatches pat q = false →
        lookupPath (mergeDepTree pat (staticLeadSegs pat.segments)
          (staticLeadSegs pat.segments) [] r.head V) q = lookupPath r.head q := by
      intro q hm
      rw [hlook q]
      by_cases hq : q ∈ candPaths (staticLeadSegs pat.segments)
          (staticLeadSegs pat.segments) [] r.head V
      · rw [if_pos hq, hmcF q hm]
      · rw [if_neg hq]
        have hnone : lookupPath r.head q = none := by
          apply lookupPath_eq_none_of_not_mem
          intro hk
          exact hq ((hmemc q).mpr (Or.inl hk))
        rw [hnone]
    have hlookT : ∀ q, patMatches pat q = true →
        lookupPath (mergeDepTree pat (staticLeadSegs pat.segments)
          (staticLeadSegs pat.segments) [] r.head V) q = lookupPath V q := by
      intro q hm
      rw [hlook q]
      by_cases hq : q ∈ candPaths (staticLeadSegs pat.segments)
          (staticLeadSegs pat.segments) [] r.head V
      · rw [if_pos hq, hmcT q hm]
      · rw [if_neg hq]
        have hnone : lookupPath V q = none := by
          apply lookupPath_eq_none_of_not_mem
          intro hk
          exact hq ((hmemc q).mpr (Or.inr hk))
        rw [hnone]
    refine ⟨V, _, _, rfl,
      vendor_merge_single_dep r.attrs r.head r.work
        ((d.pattern, V) :: r.fetchedTrees) [] d pat V hdeps hpfx hpat hfetch1 rfl hnoconf,
      rfl, rfl, ?_, ?_⟩
    · intro q hm
      exact ⟨hlookF q hm, hlookF q hm⟩
    · intro q hm
      exact ⟨hlookT q hm, hlookT q hm⟩

/-- Witness for C1's amended theorem at the spec §8 end-to-end scenario:
host HEAD holds only `README.md`, the pattern is `pyo3/**`, upstream has
`pyo3/Cargo.toml` and `other/x.txt`. -/
theorem vendor_merge_preserves_unrelated_witness :
    ∃ (V : TreeMap) (r₂ : HostRepo) (rep : MergeReport),
      lookupBy [("u", [(["pyo3", "Cargo.toml"], "ct"), (["other", "x.txt"], "ox")])] "u"
        = some V ∧
      vendor_merge_model ⟨false, true, some ["pyo3/** vendored url=u branch=main"],
          [(["README.md"], "rm")], [(["README.md"], "rm")],
          [("pyo3/**", [(["pyo3", "Cargo.toml"], "ct"), (["other", "x.txt"], "ox")])], []⟩
          none
        = .ok (r₂, rep) ∧
      rep.applied = true ∧ rep.conflicts = [] ∧
      (∀ q, patMatches ⟨[.lit "pyo3", .globstar], true, false⟩ q = false →
        lookupPath r₂.head q = lookupPath [(["README.md"], "rm")] q ∧
        lookupPath r₂.work q = lookupPath [(["README.md"], "rm")] q) ∧
      (∀ q, patMatches ⟨[.lit "pyo3", .globstar], true, false⟩ q = true →
        lookupPath r₂.head q = lookupPath V q ∧
        lookupPath r₂.work q = lookupPath V q) :=
  vendor_merge_preserves_unrelated
    ⟨false, true, some ["pyo3/** vendored url=u branch=main"], [(["README.md"], "rm")],
     [(["README.md"], "rm")], [], []⟩
    [("u", [(["pyo3", "Cargo.toml"], "ct"), (["other", "x.txt"], "ox")])]
    ⟨"pyo3/**", "u", some "main", none⟩
    ⟨[.lit "pyo3", .globstar], true, false⟩
    ⟨false, true, some ["pyo3/** vendored url=u branch=main"], [(["README.md"], "rm")],
     [(["README.md"], "rm")],
     [("pyo3/**", [(["pyo3", "Cargo.toml"], "ct"), (["other", "x.txt"], "ox")])], []⟩
    rfl rfl (by decide) rfl (by decide) rfl (by decide) (by decide)
